import Mathlib

/-!
Verification of the fin-thread pipeline controller (`job.go`, `composer/composer.go`).

The Go code is shallowly embedded: each stage method of `Job` becomes a pure
Lean function.  External collaborators (journalist, archivist, OpenAI composer,
Telegram publisher) are passed in as function-valued oracles, and the side
effects that matter for the specification (which records were created, which
records were passed to the publisher, which were updated, what was logged) are
returned as explicit traces.  Go `nil` slices are modelled as `[]`, Go `nil`
byte-slices / zero values of nullable fields as `Option.none`, and Go `error`
results as `Except String` / `Option String`.
-/

namespace FinThread

/-- Calendar timestamp, the fragment of Go `time.Time` the pipeline inspects:
`Day()` (day of month) is used by the composer's date filter; whole values are
copied into records and set as publication timestamps. -/
structure Time where
  year : Nat
  month : Nat
  day : Nat
  deriving Repr, DecidableEq

/-- One raw news item (`journalist.News`), with exactly the fields `job.go`
and `composer.go` read: `ID`, `ProviderName`, `Title`, `Description`, `Link`,
`Date`, `IsSuspicious`. -/
structure News where
  id : String
  providerName : String
  title : String
  description : String
  link : String
  date : Time
  isSuspicious : Bool
  deriving Repr, DecidableEq

/-- The anonymous meta struct serialized into `models.News.MetaData` in
`saveNews` and decoded again in `publish`: `Tickers`, `Markets`, `Hashtags`. -/
structure Meta where
  tickers : List String
  markets : List String
  hashtags : List String
  deriving Repr, DecidableEq

/-- `composer.ComposedNews`. -/
structure ComposedNews where
  id : String
  text : String
  tickers : List String
  markets : List String
  hashtags : List String
  deriving Repr, DecidableEq

/-- A persisted record (`models.News`) with the fields `job.go` writes and
reads.  `MetaData` is a nullable JSON blob in Go; here it is `Option Meta`:
`none` is the `nil` blob (on which `json.Unmarshal` fails), `some m` is the
JSON rendering of `m` (marshalling a `Meta` never fails, and unmarshalling the
rendering yields `m` back).  `ComposedText` and `PublicationID` default to the
empty string, `PublishedAt` to the zero time, modelled as `none`. -/
structure DBNews where
  hash : String
  channelID : String
  providerName : String
  originalTitle : String
  originalDesc : String
  originalDate : Time
  url : String
  isSuspicious : Bool
  composedText : String
  metaData : Option Meta
  publicationID : String
  publishedAt : Option Time
  deriving Repr, DecidableEq

/-- The `Job` configuration flags (plus the publisher's channel id, the one
piece of `app` state copied into records). -/
structure Job where
  omitSuspicious : Bool
  omitEmptyMeta : Bool
  shouldComposeText : Bool
  shouldSaveToDB : Bool
  shouldRemoveClones : Bool
  channelID : String
  deriving Repr, DecidableEq

/-- `JobData`: the run-scoped carrier threading data between the stages. -/
structure JobData where
  news : List News
  composedNews : List ComposedNews
  dbNews : List DBNews
  deriving Repr, DecidableEq

/-- `Job.removeDuplicates`.  The archivist call
`News.FindAllByHashes(ctx, hashes)` is the oracle `findAllByHashes`; the
second component counts how many times it was invoked (0 or 1), recording
whether the dedupe collaborator ran at all. -/
def removeDuplicates (job : Job)
    (findAllByHashes : List String → Except String (List DBNews))
    (news : List News) : Except String (List News) × Nat :=
  if !job.shouldRemoveClones || !job.shouldSaveToDB then
    (Except.ok news, 0)
  else
    let hashes := news.map (fun n => n.id)
    match findAllByHashes hashes with
    | Except.error e =>
        (Except.error ("[Job.removeDuplicates][News.FindAllByHashes]: " ++ e), 1)
    | Except.ok ex =>
        let existedHashes := ex.map (fun n => n.hash)
        (Except.ok (news.filter (fun n => !existedHashes.contains n.id)), 1)

/-- `Job.composeNews`.  The enrichment collaborator `composer.Compose` is the
oracle; the second component counts its invocations.  When composition is
disabled Go returns a `nil` slice and `nil` error, modelled as `(ok [], 0)`. -/
def composeNews (job : Job)
    (compose : List News → Except String (List ComposedNews))
    (news : List News) : Except String (List ComposedNews) × Nat :=
  if !job.shouldComposeText then
    (Except.ok [], 0)
  else
    match compose news with
    | Except.error e => (Except.error ("[Job.composeNews][composer.Compose]: " ++ e), 1)
    | Except.ok cs => (Except.ok cs, 1)

/-- Lookup in the Go map `composedNewsMap` built in `saveNews` by inserting
each composed item keyed by its `ID` in list order: the lookup returns the
last matching entry, if any. -/
def mapFind (composed : List ComposedNews) (i : String) : Option ComposedNews :=
  match composed with
  | [] => none
  | c :: rest =>
      match mapFind rest i with
      | some v => some v
      | none => if c.id == i then some c else none

/-- The record-building loop of `Job.saveNews`: one `models.News` per (deduped)
raw item, in order; composed text and marshalled meta are attached when the
map contains the item's id.  `json.Marshal` of the meta struct (three string
slices) cannot fail in Go, so no error case arises here. -/
def buildDBNews (job : Job) (data : JobData) : List DBNews :=
  data.news.map (fun n =>
    let base : DBNews :=
      { hash := n.id
        channelID := job.channelID
        providerName := n.providerName
        originalTitle := n.title
        originalDesc := n.description
        originalDate := n.date
        url := n.link
        isSuspicious := n.isSuspicious
        composedText := ""
        metaData := none
        publicationID := ""
        publishedAt := none }
    match mapFind data.composedNews n.id with
    | some val =>
        { base with
            composedText := val.text
            metaData := some { tickers := val.tickers, markets := val.markets,
                               hashtags := val.hashtags } }
    | none => base)

/-- The create loop of `Job.saveNews`: each record is written individually via
the archivist's `News.Create`; the first failure stops the loop.  Returns the
records durably created, in order, and the error (if any). -/
def createAll (create : DBNews → Except String Unit) :
    List DBNews → List DBNews × Option String
  | [] => ([], none)
  | n :: rest =>
      match create n with
      | Except.error e => ([], some ("[Job.saveNews][News.Create]: " ++ e))
      | Except.ok _ =>
          let r := createAll create rest
          (n :: r.1, r.2)

/-- `Job.saveNews`.  First component: the records durably created by the
archivist (the write trace).  Second: the Go return value. -/
def saveNews (job : Job) (create : DBNews → Except String Unit)
    (data : JobData) : List DBNews × Except String (List DBNews) :=
  if !job.shouldSaveToDB then
    ([], Except.ok [])
  else if data.news.length < data.composedNews.length then
    ([], Except.error "[Job.saveNews]: Composed news count is more than original news count")
  else
    let dbNews := buildDBNews job data
    match createAll create dbNews with
    | (created, some e) => (created, Except.error e)
    | (created, none) => (created, Except.ok dbNews)

/-- JSON rendering of a string slice, as Go `json.Marshal` produces it
(string escaping elided). -/
def jsonStringList (l : List String) : String :=
  "[" ++ String.intercalate "," (l.map (fun s => "\"" ++ s ++ "\"")) ++ "]"

/-- `n.MetaData.String()`: the raw JSON text of the blob; the `nil` blob
renders as the empty string. -/
def metaJSON : Option Meta → String
  | none => ""
  | some m =>
      "\x7b\"Tickers\":" ++ jsonStringList m.tickers ++
      ",\"Markets\":" ++ jsonStringList m.markets ++
      ",\"Hashtags\":" ++ jsonStringList m.hashtags ++ "\x7d"

/-- The message formatting of `Job.publish` (step 3): structured body when
composition is enabled, otherwise title and description concatenated. -/
def formatNews (job : Job) (n : DBNews) : String :=
  if job.shouldComposeText then
    "Hash: " ++ n.hash ++ "\nProvider: " ++ n.providerName ++
    "\nMeta: " ++ metaJSON n.metaData ++
    "\nIsSuspicious:" ++ (if n.isSuspicious then "true" else "false") ++
    "\n " ++ n.composedText
  else
    n.originalTitle ++ "\n" ++ n.originalDesc

/-- The empty-meta check of `Job.publish`: when `omitEmptyMeta` is set, the
record's `MetaData` blob is decoded (`json.Unmarshal`), which fails on the
`nil` blob; on success the result says whether tickers, markets and hashtags
are all empty (skip). -/
def checkMeta (job : Job) (n : DBNews) : Except String Bool :=
  if job.omitEmptyMeta then
    match n.metaData with
    | none => Except.error "[Job.publish][json.Unmarshal] meta: unexpected end of JSON input"
    | some meta =>
        Except.ok (meta.tickers.isEmpty && meta.markets.isEmpty && meta.hashtags.isEmpty)
  else
    Except.ok false

/-- Result of the publish stage: `res` is the Go return slice (records with
publication data set, `[]` when the stage errored), `calls` the trace of
records for which the publish collaborator was actually called, `err` the
error, if any. -/
structure PublishResult where
  res : List DBNews
  calls : List DBNews
  err : Option String
  deriving Repr, DecidableEq

/-- The loop of `Job.publish`, record by record in order: skip suspicious
records when `omitSuspicious`; decode meta and skip all-empty meta when
`omitEmptyMeta` (a decode failure aborts); otherwise call the publisher with
the formatted text and, on success, store the returned publication id and the
current time on the record.  A publisher failure aborts. -/
def publishNews (job : Job) (pub : String → Except String String) (now : Time) :
    List DBNews → PublishResult
  | [] => { res := [], calls := [], err := none }
  | n :: rest =>
      if n.isSuspicious && job.omitSuspicious then
        let r := publishNews job pub now rest
        { res := n :: r.res, calls := r.calls, err := r.err }
      else
        match checkMeta job n with
        | Except.error e => { res := [], calls := [], err := some e }
        | Except.ok true =>
            let r := publishNews job pub now rest
            { res := n :: r.res, calls := r.calls, err := r.err }
        | Except.ok false =>
            match pub (formatNews job n) with
            | Except.error e =>
                { res := [], calls := [n],
                  err := some ("[Job.publish][publisher.Publish]: " ++ e) }
            | Except.ok pid =>
                let r := publishNews job pub now rest
                { res := { n with publicationID := pid, publishedAt := some now } :: r.res,
                  calls := n :: r.calls, err := r.err }

/-- `Job.publish`: on error Go returns a `nil` slice (the side-effecting
publish calls already made are kept in the trace). -/
def Job.publish (job : Job) (pub : String → Except String String) (now : Time)
    (dbNews : List DBNews) : PublishResult :=
  let r := publishNews job pub now dbNews
  match r.err with
  | some e => { res := [], calls := r.calls, err := some e }
  | none => r

/-- The update loop of `Job.updateNews`: writes each record back via the
archivist's `News.Update`, stopping at the first failure.  Returns the records
durably updated and the error, if any. -/
def updateAll (update : DBNews → Except String Unit) :
    List DBNews → List DBNews × Option String
  | [] => ([], none)
  | n :: rest =>
      match update n with
      | Except.error e => ([], some ("[Job.updateNews][News.Update]: " ++ e))
      | Except.ok _ =>
          let r := updateAll update rest
          (n :: r.1, r.2)

/-- `Job.updateNews`: a no-op when persistence is disabled. -/
def updateNews (job : Job) (update : DBNews → Except String Unit)
    (dbNews : List DBNews) : List DBNews × Option String :=
  if !job.shouldSaveToDB then ([], none)
  else updateAll update dbNews

/-- `Composer.Compose` (composer.go).  The filter keeps items whose `Date.Day()`
equals `time.Now().Day()` — day of month only.  If nothing passes, `(nil, nil)`
is returned without contacting OpenAI.  Otherwise the filtered list is sent to
the OpenAI chat completion (JSON encoding of the request, the network call and
the JSON decoding of the response are bundled into the `oracle`).  Second
component: the list of items actually handed to the enrichment call (`[]` when
the call was skipped). -/
def Composer.compose (now : Time)
    (oracle : List News → Except String (List ComposedNews))
    (news : List News) : Except String (List ComposedNews) × List News :=
  let todayNews := news.filter (fun n => n.date.day == now.day)
  if todayNews.length == 0 then
    (Except.ok [], [])
  else
    match oracle todayNews with
    | Except.error e => (Except.error ("[Compose] " ++ e), todayNews)
    | Except.ok cs => (Except.ok cs, todayNews)

/-- The external collaborators consumed by one run, as `Job.Run` reaches them:
the journalist (`GetLatestNews`, which may return a partial list alongside an
error), the archivist (`FindAllByHashes`, `Create`, `Update`), the composer
and the publisher. -/
structure Collaborators where
  getLatestNews : Unit → List News × Option String
  findAllByHashes : List String → Except String (List DBNews)
  compose : List News → Except String (List ComposedNews)
  create : DBNews → Except String Unit
  pub : String → Except String String
  update : DBNews → Except String Unit

/-- Where the run's control flow ended, mirroring the `return` sites of the
`Job.Run` closure: the two silent no-op returns, the five error returns and
the successful fall-through. -/
inductive Outcome where
  | noopFetch
  | failedDedupe
  | noopDedupe
  | failedCompose
  | failedSave
  | failedPublish
  | failedUpdate
  | success
  deriving Repr, DecidableEq

/-- Observable trace of one run: logged messages, number of invocations of the
dedupe and compose collaborators, records created / passed to the publisher /
updated, and where the run ended. -/
structure RunTrace where
  logs : List String
  dedupeCalls : Nat
  composeCalls : Nat
  created : List DBNews
  publishCalled : List DBNews
  updated : List DBNews
  outcome : Outcome
  deriving Repr, DecidableEq

/-- The trace of a run that did nothing after fetch. -/
def emptyTrace : RunTrace :=
  { logs := [], dedupeCalls := 0, composeCalls := 0, created := [],
    publishCalled := [], updated := [], outcome := Outcome.noopFetch }

/-- The log entry `Job.Run` writes when `GetLatestNews` returns an error. -/
def fetchLog : Option String → List String
  | some e => ["[GetLatestNews] error: " ++ e]
  | none => []

/-- The body of `Job.Run` after the fetch step: dedupe, emptiness check,
compose, persist, publish, update, each aborting the run on error exactly as
the Go `return` statements do.  The collaborator functions are passed
individually (the fetch collaborator is consumed by `Job.run` itself). -/
def runRest (job : Job) (fa : List String → Except String (List DBNews))
    (co : List News → Except String (List ComposedNews))
    (cr : DBNews → Except String Unit) (pu : String → Except String String)
    (up : DBNews → Except String Unit) (now : Time) (news : List News) :
    RunTrace :=
  match removeDuplicates job fa news with
  | (Except.error e, ncalls) =>
      { logs := ["[removeDuplicates] error: " ++ e], dedupeCalls := ncalls,
        composeCalls := 0, created := [], publishCalled := [], updated := [],
        outcome := Outcome.failedDedupe }
  | (Except.ok dnews, ncalls) =>
      if dnews.length == 0 then
        { logs := [], dedupeCalls := ncalls, composeCalls := 0, created := [],
          publishCalled := [], updated := [], outcome := Outcome.noopDedupe }
      else
        match composeNews job co dnews with
        | (Except.error e, ccalls) =>
            { logs := ["[composeNews] error: " ++ e], dedupeCalls := ncalls,
              composeCalls := ccalls, created := [], publishCalled := [],
              updated := [], outcome := Outcome.failedCompose }
        | (Except.ok comps, ccalls) =>
            match saveNews job cr
                { news := dnews, composedNews := comps, dbNews := [] } with
            | (created, Except.error e) =>
                { logs := ["[saveNews] error: " ++ e], dedupeCalls := ncalls,
                  composeCalls := ccalls, created := created, publishCalled := [],
                  updated := [], outcome := Outcome.failedSave }
            | (created, Except.ok dbNews) =>
                match Job.publish job pu now dbNews with
                | { res := _, calls := pcalls, err := some e } =>
                    { logs := ["[publish] error: " ++ e], dedupeCalls := ncalls,
                      composeCalls := ccalls, created := created,
                      publishCalled := pcalls, updated := [],
                      outcome := Outcome.failedPublish }
                | { res := pres, calls := pcalls, err := none } =>
                    match updateNews job up pres with
                    | (upd, some e) =>
                        { logs := ["[updateNews] error: " ++ e],
                          dedupeCalls := ncalls, composeCalls := ccalls,
                          created := created, publishCalled := pcalls,
                          updated := upd, outcome := Outcome.failedUpdate }
                    | (upd, none) =>
                        { logs := [], dedupeCalls := ncalls,
                          composeCalls := ccalls, created := created,
                          publishCalled := pcalls, updated := upd,
                          outcome := Outcome.success }

/-- `Job.Run`: fetch (logging a fetch error but proceeding with the partial
result), return silently when nothing was fetched, otherwise run the rest of
the pipeline. -/
def Job.run (job : Job) (c : Collaborators) (now : Time) : RunTrace :=
  if (c.getLatestNews ()).1.length == 0 then
    { emptyTrace with logs := fetchLog (c.getLatestNews ()).2 }
  else
    { runRest job c.findAllByHashes c.compose c.create c.pub c.update now
        (c.getLatestNews ()).1 with
      logs := fetchLog (c.getLatestNews ()).2 ++
        (runRest job c.findAllByHashes c.compose c.create c.pub c.update now
          (c.getLatestNews ()).1).logs }

/-! ## Sample values used by witnesses and counterexamples -/

/-- Sample timestamp. -/
def tDec15 : Time := ⟨2023, 12, 15⟩

/-- Sample raw item (not suspicious). -/
def newsA : News := ⟨"a1", "p", "tA", "dA", "la", tDec15, false⟩

/-- Sample raw item (suspicious). -/
def newsB : News := ⟨"b2", "p", "tB", "dB", "lb", tDec15, true⟩

/-- Sample raw item (not suspicious). -/
def newsC : News := ⟨"c3", "p", "tC", "dC", "lc", tDec15, false⟩

/-- A stored record with hash `"b2"`, as the archivist might report it. -/
def storedB : DBNews :=
  { hash := "b2", channelID := "ch", providerName := "p", originalTitle := "t",
    originalDesc := "d", originalDate := tDec15, url := "u",
    isSuspicious := false, composedText := "", metaData := none,
    publicationID := "", publishedAt := none }

/-- Configuration with dedupe and persistence enabled. -/
def jobDedupe : Job :=
  { omitSuspicious := false, omitEmptyMeta := false, shouldComposeText := false,
    shouldSaveToDB := true, shouldRemoveClones := true, channelID := "ch" }

/-- Configuration with the suspicious filter enabled. -/
def jobPub : Job :=
  { omitSuspicious := true, omitEmptyMeta := false, shouldComposeText := false,
    shouldSaveToDB := true, shouldRemoveClones := false, channelID := "ch" }

/-- Configuration with composition and the empty-meta filter enabled. -/
def jobMeta : Job :=
  { omitSuspicious := false, omitEmptyMeta := true, shouldComposeText := true,
    shouldSaveToDB := true, shouldRemoveClones := false, channelID := "ch" }

/-- Sample non-empty metadata. -/
def metaX : Meta := ⟨["X"], [], []⟩

/-- All-empty metadata. -/
def metaEmpty : Meta := ⟨[], [], []⟩

/-- A suspicious persisted record. -/
def recS : DBNews :=
  { hash := "s1", channelID := "ch", providerName := "p", originalTitle := "tS",
    originalDesc := "dS", originalDate := tDec15, url := "uS",
    isSuspicious := true, composedText := "cS", metaData := some metaX,
    publicationID := "", publishedAt := none }

/-- A normal persisted record with non-empty metadata. -/
def recN : DBNews :=
  { hash := "n1", channelID := "ch", providerName := "p", originalTitle := "tN",
    originalDesc := "dN", originalDate := tDec15, url := "uN",
    isSuspicious := false, composedText := "cN", metaData := some metaX,
    publicationID := "", publishedAt := none }

/-- A record whose decoded metadata is simultaneously empty. -/
def recEmpty : DBNews :=
  { hash := "e1", channelID := "ch", providerName := "p", originalTitle := "tE",
    originalDesc := "dE", originalDate := tDec15, url := "uE",
    isSuspicious := false, composedText := "cE", metaData := some metaEmpty,
    publicationID := "", publishedAt := none }

/-- A publisher oracle that always succeeds. -/
def pubOK : String → Except String String := fun _ => Except.ok "msg1"

/-- Sample composed item matching `newsA`. -/
def compA : ComposedNews := ⟨"a1", "textA", ["AAPL"], ["US"], ["#a"]⟩

/-- Sample composed item matching `newsC`, with empty metadata. -/
def compC : ComposedNews := ⟨"c3", "textC", [], [], []⟩

/-- An item dated November 15, 2023 — same day of month as `tDec15` but a
different calendar day. -/
def newsNov15 : News := ⟨"nv", "p", "tNv", "dNv", "lnv", ⟨2023, 11, 15⟩, false⟩

/-- An item dated December 14, 2023 — differing day of month from `tDec15`. -/
def newsDec14 : News := ⟨"d4", "p", "tD4", "dD4", "ld4", ⟨2023, 12, 14⟩, false⟩

/-- Whether two timestamps fall on the same calendar day — the comparison the
spec's words (and the comment above the composer's filter) prescribe. -/
def sameCalendarDay (a b : Time) : Bool :=
  a.year == b.year && a.month == b.month && a.day == b.day

/-! ## Helper lemmas -/

theorem contains_eq_decide_mem (l : List String) (a : String) :
    l.contains a = decide (a ∈ l) := by
  by_cases hm : a ∈ l
  · have h1 : l.contains a = true := List.elem_iff.mpr hm
    have h2 : decide (a ∈ l) = true := by simp [hm]
    rw [h1, h2]
  · have h1 : l.contains a = false := by
      cases hc : l.contains a
      · rfl
      · exact absurd (List.elem_iff.mp hc) hm
    have h2 : decide (a ∈ l) = false := by simp [hm]
    rw [h1, h2]

theorem publish_calls_eq (job : Job) (pub : String → Except String String)
    (now : Time) (l : List DBNews) :
    (Job.publish job pub now l).calls = (publishNews job pub now l).calls := by
  unfold Job.publish
  cases h : (publishNews job pub now l).err <;> simp [h]

theorem publish_res_eq (job : Job) (pub : String → Except String String)
    (now : Time) (l : List DBNews) (h : (publishNews job pub now l).err = none) :
    (Job.publish job pub now l).res = (publishNews job pub now l).res := by
  unfold Job.publish
  simp [h]

theorem saveNews_disabled (job : Job) (cr : DBNews → Except String Unit)
    (data : JobData) (h : job.shouldSaveToDB = false) :
    saveNews job cr data = ([], Except.ok []) := by
  simp [saveNews, h]

theorem updateNews_disabled (job : Job) (up : DBNews → Except String Unit)
    (l : List DBNews) (h : job.shouldSaveToDB = false) :
    updateNews job up l = ([], none) := by
  simp [updateNews, h]

theorem publish_nil (job : Job) (pub : String → Except String String)
    (now : Time) : Job.publish job pub now [] = { res := [], calls := [], err := none } :=
  rfl

/-! ## Claims -/

/-- C4: with persistence enabled, if the number of composed items exceeds the
number of raw items reaching the Persist stage, `saveNews` returns the fatal
consistency error and the trace of created records is empty — no create call
was made to the archivist. -/
theorem saveNews_count_violation (job : Job) (create : DBNews → Except String Unit)
    (data : JobData) (hdb : job.shouldSaveToDB = true)
    (hlt : data.news.length < data.composedNews.length) :
    saveNews job create data =
      ([], Except.error "[Job.saveNews]: Composed news count is more than original news count") := by
  simp [saveNews, hdb, hlt]

/-- C3: when both `shouldRemoveClones` and `shouldSaveToDB` are set and the
archivist reports `ex` as the existing records, `removeDuplicates` queries the
archivist once and returns exactly the input items whose id is not among the
reported hashes, in input order (a `filter` of the input); when the flags are
not both set it returns the input unchanged without querying the archivist. -/
theorem removeDuplicates_spec (job : Job)
    (oracle : List String → Except String (List DBNews)) (news : List News) :
    (∀ ex, oracle (news.map (fun n => n.id)) = Except.ok ex →
      job.shouldRemoveClones = true → job.shouldSaveToDB = true →
      removeDuplicates job oracle news =
        (Except.ok (news.filter
          (fun n => decide (n.id ∉ ex.map (fun r => r.hash)))), 1)) ∧
    (¬(job.shouldRemoveClones = true ∧ job.shouldSaveToDB = true) →
      removeDuplicates job oracle news = (Except.ok news, 0)) := by
  constructor
  · intro ex hok h1 h2
    simp only [removeDuplicates, h1, h2, Bool.not_true, Bool.or_self,
      Bool.false_eq_true, if_false, hok]
    refine congrArg (fun l => (Except.ok l, 1)) ?_
    apply List.filter_congr
    intro n _
    rw [contains_eq_decide_mem, decide_not]
  · intro h
    cases h1 : job.shouldRemoveClones
    · simp [removeDuplicates, h1]
    · cases h2 : job.shouldSaveToDB
      · simp [removeDuplicates, h1, h2]
      · exact absurd ⟨h1, h2⟩ h

/-- C3 witness: a concrete instantiation — flags set, archivist reports hash
`"b2"` as existing, so of the three fetched items exactly the first and third
survive, and the archivist was queried once. -/
theorem removeDuplicates_spec_witness :
    removeDuplicates jobDedupe (fun _ => Except.ok [storedB])
        [newsA, newsB, newsC] =
      (Except.ok [newsA, newsC], 1) := by
  have h := (removeDuplicates_spec jobDedupe (fun _ => Except.ok [storedB])
    [newsA, newsB, newsC]).1 [storedB] rfl rfl rfl
  rw [h]
  rfl

/-- C4 witness: one raw item but two composed items — `saveNews` aborts with
the consistency error and creates nothing, even though the create oracle would
succeed. -/
theorem saveNews_count_violation_witness :
    saveNews jobDedupe (fun _ => Except.ok ())
        { news := [newsA], composedNews := [compA, compC], dbNews := [] } =
      ([], Except.error "[Job.saveNews]: Composed news count is more than original news count") :=
  saveNews_count_violation jobDedupe (fun _ => Except.ok ())
    { news := [newsA], composedNews := [compA, compC], dbNews := [] }
    rfl (by decide)

theorem publishNews_suspicious (job : Job) (pub : String → Except String String)
    (now : Time) (l : List DBNews) (h : job.omitSuspicious = true) :
    (∀ r ∈ (publishNews job pub now l).calls, r.isSuspicious = false) ∧
    (∀ r ∈ (publishNews job pub now l).res, r.isSuspicious = true → r ∈ l) := by
  induction l with
  | nil =>
      constructor <;> intro r hr <;> simp [publishNews] at hr
  | cons n rest ih =>
      by_cases hs : n.isSuspicious = true
      · have hb : (n.isSuspicious && job.omitSuspicious) = true := by rw [hs, h]; rfl
        constructor
        · intro r hr
          simp only [publishNews, hb, if_true] at hr
          exact ih.1 r hr
        · intro r hr hrs
          simp only [publishNews, hb, if_true] at hr
          rcases List.mem_cons.mp hr with h1 | h1
          · rw [h1]; exact List.mem_cons_self _ _
          · exact List.mem_cons_of_mem _ (ih.2 r h1 hrs)
      · have hsf : n.isSuspicious = false := by
          cases hsv : n.isSuspicious
          · rfl
          · exact absurd hsv hs
        have hb : (n.isSuspicious && job.omitSuspicious) = false := by
          rw [hsf]; rfl
        constructor
        · intro r hr
          simp only [publishNews, hb, Bool.false_eq_true, if_false] at hr
          cases hcm : checkMeta job n with
          | error e => rw [hcm] at hr; simp at hr
          | ok b =>
              rw [hcm] at hr
              cases b
              · simp only at hr
                cases hp : pub (formatNews job n) with
                | error e =>
                    rw [hp] at hr
                    simp only [List.mem_singleton] at hr
                    rw [hr]; exact hsf
                | ok pid =>
                    rw [hp] at hr
                    simp only at hr
                    rcases List.mem_cons.mp hr with h1 | h1
                    · rw [h1]; exact hsf
                    · exact ih.1 r h1
              · simp only at hr
                exact ih.1 r hr
        · intro r hr hrs
          simp only [publishNews, hb, Bool.false_eq_true, if_false] at hr
          cases hcm : checkMeta job n with
          | error e => rw [hcm] at hr; simp at hr
          | ok b =>
              rw [hcm] at hr
              cases b
              · simp only at hr
                cases hp : pub (formatNews job n) with
                | error e => rw [hp] at hr; simp at hr
                | ok pid =>
                    rw [hp] at hr
                    simp only at hr
                    rcases List.mem_cons.mp hr with h1 | h1
                    · exfalso
                      rw [h1] at hrs
                      simp only at hrs
                      rw [hsf] at hrs
                      exact Bool.false_ne_true hrs
                    · exact List.mem_cons_of_mem _ (ih.2 r h1 hrs)
              · simp only at hr
                rcases List.mem_cons.mp hr with h1 | h1
                · rw [h1]; exact List.mem_cons_self _ _
                · exact List.mem_cons_of_mem _ (ih.2 r h1 hrs)

/-- C7: with `omitSuspicious` enabled, no suspicious record is ever passed to
the publish collaborator, and every suspicious record in the stage's output is
the unmodified input record (its publication id and timestamp untouched). -/
theorem publish_omits_suspicious (job : Job) (pub : String → Except String String)
    (now : Time) (l : List DBNews) (h : job.omitSuspicious = true) :
    (∀ r ∈ (Job.publish job pub now l).calls, r.isSuspicious = false) ∧
    (∀ r ∈ (Job.publish job pub now l).res, r.isSuspicious = true → r ∈ l) := by
  have hmain := publishNews_suspicious job pub now l h
  constructor
  · intro r hr
    rw [publish_calls_eq] at hr
    exact hmain.1 r hr
  · intro r hr hrs
    cases he : (publishNews job pub now l).err
    · rw [publish_res_eq job pub now l he] at hr
      exact hmain.2 r hr hrs
    · have hnil : (Job.publish job pub now l).res = [] := by
        unfold Job.publish
        simp [he]
      rw [hnil] at hr
      simp at hr

/-- C7 witness: suspicious `recS` followed by normal `recN` — only `recN` is
passed to the publisher, and the suspicious-records-unchanged property holds
at this input. -/
theorem publish_omits_suspicious_witness :
    (Job.publish jobPub pubOK tDec15 [recS, recN]).calls = [recN] ∧
    ((∀ r ∈ (Job.publish jobPub pubOK tDec15 [recS, recN]).calls,
        r.isSuspicious = false) ∧
     (∀ r ∈ (Job.publish jobPub pubOK tDec15 [recS, recN]).res,
        r.isSuspicious = true → r ∈ [recS, recN])) :=
  ⟨rfl, publish_omits_suspicious jobPub pubOK tDec15 [recS, recN] rfl⟩

theorem publishNews_emptyMeta (job : Job) (pub : String → Except String String)
    (now : Time) (l : List DBNews) (h : job.omitEmptyMeta = true) :
    ∀ r ∈ (publishNews job pub now l).calls, ∀ m, r.metaData = some m →
      (m.tickers.isEmpty && m.markets.isEmpty && m.hashtags.isEmpty) = false := by
  induction l with
  | nil => intro r hr; simp [publishNews] at hr
  | cons n rest ih =>
      intro r hr m hm
      by_cases hb : (n.isSuspicious && job.omitSuspicious) = true
      · simp only [publishNews, hb, if_true] at hr
        exact ih r hr m hm
      · have hbf : (n.isSuspicious && job.omitSuspicious) = false :=
          Bool.not_eq_true _ ▸ Bool.of_not_eq_true hb
        simp only [publishNews, hbf, Bool.false_eq_true, if_false] at hr
        cases hmd : n.metaData with
        | none =>
            have : checkMeta job n = Except.error
                "[Job.publish][json.Unmarshal] meta: unexpected end of JSON input" := by
              simp [checkMeta, h, hmd]
            rw [this] at hr
            simp at hr
        | some meta =>
            have hck : checkMeta job n =
                Except.ok (meta.tickers.isEmpty && meta.markets.isEmpty &&
                  meta.hashtags.isEmpty) := by
              simp [checkMeta, h, hmd]
            rw [hck] at hr
            cases hemp : (meta.tickers.isEmpty && meta.markets.isEmpty &&
                meta.hashtags.isEmpty)
            · rw [hemp] at hr
              simp only at hr
              cases hp : pub (formatNews job n) with
              | error e =>
                  rw [hp] at hr
                  simp only [List.mem_singleton] at hr
                  rw [hr] at hm
                  rw [hmd] at hm
                  have : meta = m := Option.some.inj hm
                  rw [← this]
                  exact hemp
              | ok pid =>
                  rw [hp] at hr
                  simp only at hr
                  rcases List.mem_cons.mp hr with h1 | h1
                  · rw [h1] at hm
                    rw [hmd] at hm
                    have : meta = m := Option.some.inj hm
                    rw [← this]
                    exact hemp
                  · exact ih r h1 m hm
            · rw [hemp] at hr
              simp only at hr
              exact ih r hr m hm

/-- C8: with composition and `omitEmptyMeta` both enabled, a record whose
decoded metadata has empty tickers, empty markets and empty hashtags
simultaneously is never passed to the publish collaborator: every record the
collaborator receives has decoded metadata that is not all-empty. -/
theorem publish_omits_empty_meta (job : Job) (pub : String → Except String String)
    (now : Time) (l : List DBNews) (_hc : job.shouldComposeText = true)
    (h : job.omitEmptyMeta = true) (r : DBNews) (m : Meta)
    (hr : r ∈ (Job.publish job pub now l).calls) (hm : r.metaData = some m) :
    ¬(m.tickers = [] ∧ m.markets = [] ∧ m.hashtags = []) := by
  rintro ⟨ht, hmk, hh⟩
  have hfalse := publishNews_emptyMeta job pub now l h r
    (by rwa [publish_calls_eq] at hr) m hm
  rw [ht, hmk, hh] at hfalse
  simp at hfalse

/-- C8 witness: `recEmpty` (all-empty decoded metadata) followed by `recN`
(non-empty metadata) — only `recN` is passed to the publisher, and the
theorem's conclusion holds for `recN`'s metadata. -/
theorem publish_omits_empty_meta_witness :
    (Job.publish jobMeta pubOK tDec15 [recEmpty, recN]).calls = [recN] ∧
    ¬(metaX.tickers = [] ∧ metaX.markets = [] ∧ metaX.hashtags = []) :=
  ⟨rfl, publish_omits_empty_meta jobMeta pubOK tDec15 [recEmpty, recN]
    rfl rfl recN metaX (by decide) rfl⟩

/-- C2: evaluating `Composer.Compose` at a concrete failing input.  The item
dated 2023-11-15 does not fall on the current calendar day (now =
2023-12-15), yet the filter `n.Date.Day() == time.Now().Day()` compares only
the day of month, so the item is handed to the enrichment call — contradicting
the filter's own comment ("Filter out news that are not from today") and the
contract the claim states.  The second half of the contract does hold: when no
item passes the filter (here an item dated 2023-12-14), the result is empty
and non-error, without contacting the enrichment service. -/
theorem compose_day_of_month_bug :
    (Composer.compose tDec15 (fun _ => Except.ok []) [newsNov15]).2 = [newsNov15] ∧
    sameCalendarDay newsNov15.date tDec15 = false ∧
    Composer.compose tDec15 (fun _ => Except.ok []) [newsDec14] =
      (Except.ok [], []) :=
  ⟨rfl, rfl, rfl⟩

theorem mapFind_some {composed : List ComposedNews} {i : String}
    {c : ComposedNews} (h : mapFind composed i = some c) :
    c ∈ composed ∧ c.id = i := by
  induction composed with
  | nil => exact Option.noConfusion h
  | cons x xs ih =>
      rw [mapFind] at h
      cases hx : mapFind xs i with
      | some v =>
          rw [hx] at h
          injection h with h'
          subst h'
          have hv := ih hx
          exact ⟨List.mem_cons_of_mem _ hv.1, hv.2⟩
      | none =>
          rw [hx] at h
          by_cases hid : (x.id == i) = true
          · rw [if_pos hid] at h
            injection h with h'
            subst h'
            exact ⟨List.mem_cons_self _ _, eq_of_beq hid⟩
          · rw [if_neg hid] at h
            exact Option.noConfusion h

theorem mapFind_none {composed : List ComposedNews} {i : String}
    (h : mapFind composed i = none) : ∀ c ∈ composed, c.id ≠ i := by
  induction composed with
  | nil => intro c hc; exact absurd hc (List.not_mem_nil c)
  | cons x xs ih =>
      rw [mapFind] at h
      cases hx : mapFind xs i with
      | some v => rw [hx] at h; exact Option.noConfusion h
      | none =>
          rw [hx] at h
          intro c hc
          rcases List.mem_cons.mp hc with h1 | h1
          · subst h1
            by_cases hid : (c.id == i) = true
            · rw [if_pos hid] at h; exact Option.noConfusion h
            · intro he
              exact hid (beq_iff_eq.mpr he)
          · exact ih hx c h1

/-- The record the spec's words prescribe for a raw item `n`, given the run's
composed items: raw fields copied, and composed text plus serialized metadata
attached exactly when a composed item with matching id exists. -/
def specRecordFor (composed : List ComposedNews) (job : Job) (n : News)
    (r : DBNews) : Prop :=
  r.hash = n.id ∧ r.channelID = job.channelID ∧
  r.providerName = n.providerName ∧ r.originalTitle = n.title ∧
  r.originalDesc = n.description ∧ r.originalDate = n.date ∧
  r.url = n.link ∧ r.isSuspicious = n.isSuspicious ∧
  ((∃ c ∈ composed, c.id = n.id) →
    ∃ c ∈ composed, c.id = n.id ∧ r.composedText = c.text ∧
      r.metaData = some ⟨c.tickers, c.markets, c.hashtags⟩) ∧
  ((¬∃ c ∈ composed, c.id = n.id) → r.composedText = "" ∧ r.metaData = none)

theorem buildDBNews_spec (job : Job) (data : JobData) :
    List.Forall₂ (specRecordFor data.composedNews job) data.news
      (buildDBNews job data) := by
  rw [buildDBNews, List.forall₂_map_right_iff, List.forall₂_same]
  intro n _
  cases hmf : mapFind data.composedNews n.id with
  | some val =>
      obtain ⟨hmem, hid⟩ := mapFind_some hmf
      simp only [hmf]
      exact ⟨rfl, rfl, rfl, rfl, rfl, rfl, rfl, rfl,
        fun _ => ⟨val, hmem, hid, rfl, rfl⟩,
        fun hno => absurd ⟨val, hmem, hid⟩ hno⟩
  | none =>
      have hno := mapFind_none hmf
      simp only [hmf]
      refine ⟨rfl, rfl, rfl, rfl, rfl, rfl, rfl, rfl, ?_, fun _ => ⟨rfl, rfl⟩⟩
      rintro ⟨c, hc, hcid⟩
      exact absurd hcid (hno c hc)

/-- C6: with persistence enabled, whenever `saveNews` succeeds its result has
exactly one record per surviving item, in the same order, each related to its
item as the spec prescribes (`specRecordFor`): raw fields copied, composed
text and serialized metadata attached iff a composed item with matching id
exists, null fields otherwise. -/
theorem saveNews_builds_records (job : Job)
    (create : DBNews → Except String Unit) (data : JobData)
    (dbNews : List DBNews) (hdb : job.shouldSaveToDB = true)
    (hok : (saveNews job create data).2 = Except.ok dbNews) :
    List.Forall₂ (specRecordFor data.composedNews job) data.news dbNews := by
  rw [saveNews] at hok
  rw [hdb] at hok
  simp only [Bool.not_true, Bool.false_eq_true, if_false] at hok
  by_cases hlt : data.news.length < data.composedNews.length
  · rw [if_pos hlt] at hok
    exact Except.noConfusion hok
  · rw [if_neg hlt] at hok
    cases hca : createAll create (buildDBNews job data) with
    | mk created errOpt =>
        rw [hca] at hok
        cases errOpt with
        | some e => exact Except.noConfusion hok
        | none =>
            simp only at hok
            injection hok with h'
            rw [← h']
            exact buildDBNews_spec job data

/-- The record `saveNews` builds for `newsA` when `compA` matched. -/
def dbA : DBNews :=
  { hash := "a1", channelID := "ch", providerName := "p", originalTitle := "tA",
    originalDesc := "dA", originalDate := tDec15, url := "la",
    isSuspicious := false, composedText := "textA",
    metaData := some ⟨["AAPL"], ["US"], ["#a"]⟩, publicationID := "",
    publishedAt := none }

/-- The record `saveNews` builds for `newsB` when nothing matched. -/
def dbB : DBNews :=
  { hash := "b2", channelID := "ch", providerName := "p", originalTitle := "tB",
    originalDesc := "dB", originalDate := tDec15, url := "lb",
    isSuspicious := true, composedText := "", metaData := none,
    publicationID := "", publishedAt := none }

/-- C6 witness: two items, one composed match — `saveNews` succeeds with
records `[dbA, dbB]` and the pointwise spec relation holds. -/
theorem saveNews_builds_records_witness :
    List.Forall₂
      (specRecordFor [compA] jobDedupe) [newsA, newsB] [dbA, dbB] :=
  saveNews_builds_records jobDedupe (fun _ => Except.ok ())
    { news := [newsA, newsB], composedNews := [compA], dbNews := [] }
    [dbA, dbB] rfl rfl

/-- C5: a fetch error is recoverable — the run logs it and otherwise behaves
exactly as the run in which fetch succeeded with the same (possibly partial)
item list; and whenever the fetched list is empty the run terminates
immediately as a no-op: zero queries to the dedupe and compose collaborators
and no create, publish or update call. -/
theorem run_fetch_recoverable_and_empty_noop (job : Job) (c : Collaborators)
    (now : Time) (news : List News) (ferr : Option String)
    (hf : c.getLatestNews () = (news, ferr)) :
    (Job.run job c now =
      { Job.run job { c with getLatestNews := fun _ => (news, none) } now with
          logs := fetchLog ferr ++
            (Job.run job
              { c with getLatestNews := fun _ => (news, none) } now).logs }) ∧
    (news = [] →
      (Job.run job c now).dedupeCalls = 0 ∧
      (Job.run job c now).composeCalls = 0 ∧
      (Job.run job c now).created = [] ∧
      (Job.run job c now).publishCalled = [] ∧
      (Job.run job c now).updated = [] ∧
      (Job.run job c now).outcome = Outcome.noopFetch) := by
  constructor
  · simp only [Job.run, hf]
    by_cases h0 : (news.length == 0) = true
    · simp [h0, fetchLog, emptyTrace]
    · simp [h0, fetchLog]
  · intro hnil
    subst hnil
    simp [Job.run, hf, emptyTrace, fetchLog]

/-- The collaborator bundle of a run whose fetch fails outright: an empty
item list alongside an error. -/
def collabEmptyErr : Collaborators :=
  { getLatestNews := fun _ => ([], some "net down"),
    findAllByHashes := fun _ => Except.ok [],
    compose := fun _ => Except.ok [],
    create := fun _ => Except.ok (),
    pub := pubOK,
    update := fun _ => Except.ok () }

/-- C5 witness: fetch returns an empty list plus an error — the logged-error
relation holds, and the run is a no-op with zero collaborator calls. -/
theorem run_fetch_recoverable_and_empty_noop_witness :
    (Job.run jobDedupe collabEmptyErr tDec15 =
      { Job.run jobDedupe
          { collabEmptyErr with
              getLatestNews := fun _ => (([] : List News), none) } tDec15 with
          logs := fetchLog (some "net down") ++
            (Job.run jobDedupe
              { collabEmptyErr with
                  getLatestNews := fun _ => (([] : List News), none) }
              tDec15).logs }) ∧
    (([] : List News) = [] →
      (Job.run jobDedupe collabEmptyErr tDec15).dedupeCalls = 0 ∧
      (Job.run jobDedupe collabEmptyErr tDec15).composeCalls = 0 ∧
      (Job.run jobDedupe collabEmptyErr tDec15).created = [] ∧
      (Job.run jobDedupe collabEmptyErr tDec15).publishCalled = [] ∧
      (Job.run jobDedupe collabEmptyErr tDec15).updated = [] ∧
      (Job.run jobDedupe collabEmptyErr tDec15).outcome = Outcome.noopFetch) :=
  run_fetch_recoverable_and_empty_noop jobDedupe collabEmptyErr tDec15 []
    (some "net down") rfl

theorem createAll_fails_at (create : DBNews → Except String Unit)
    (l : List DBNews) (k : Nat) (hk : k < l.length) (e : String)
    (hpre : ∀ j (hj : j < k), create (l.get ⟨j, hj.trans hk⟩) = Except.ok ())
    (hfail : create (l.get ⟨k, hk⟩) = Except.error e) :
    createAll create l =
      (l.take k, some ("[Job.saveNews][News.Create]: " ++ e)) := by
  induction l generalizing k with
  | nil => exact absurd hk (Nat.not_lt_zero k)
  | cons n rest ih =>
      cases k with
      | zero =>
          have hfn : create n = Except.error e := hfail
          rw [createAll, hfn]
          rfl
      | succ k' =>
          have h0 : create n = Except.ok () := hpre 0 (Nat.succ_pos k')
          have hk' : k' < rest.length := Nat.lt_of_succ_lt_succ hk
          have hrec := ih k' hk'
            (fun j hj => hpre (j + 1) (Nat.succ_lt_succ hj))
            hfail
          rw [createAll, h0]
          simp only
          rw [hrec]
          rfl

theorem runRest_failedSave (job : Job)
    (fa : List String → Except String (List DBNews))
    (co : List News → Except String (List ComposedNews))
    (cr : DBNews → Except String Unit) (pu : String → Except String String)
    (up : DBNews → Except String Unit) (now : Time) (news : List News)
    (h : (runRest job fa co cr pu up now news).outcome = Outcome.failedSave) :
    (runRest job fa co cr pu up now news).publishCalled = [] ∧
    (runRest job fa co cr pu up now news).updated = [] := by
  revert h
  unfold runRest
  split
  · intro h; simp at h
  · split
    · intro h; simp at h
    · split
      · intro h; simp at h
      · split
        · intro _; exact ⟨rfl, rfl⟩
        · split
          · intro h; simp at h
          · split
            · intro h; simp at h
            · intro h; simp at h

theorem run_failedSave (job : Job) (c : Collaborators) (now : Time)
    (h : (Job.run job c now).outcome = Outcome.failedSave) :
    (Job.run job c now).publishCalled = [] ∧
    (Job.run job c now).updated = [] := by
  revert h
  unfold Job.run
  split
  · intro h; simp [emptyTrace] at h
  · intro h
    exact runRest_failedSave job c.findAllByHashes c.compose c.create c.pub
      c.update now (c.getLatestNews ()).1 h

/-- C9: when the archivist's create operation succeeds on the first `k`
records and fails on record `k` (0-based), the Persist stage writes strictly
in order: exactly the first `k` records are durably created and the stage
errors; and in any run whose outcome is that persist failure, the publish and
update collaborators are never invoked. -/
theorem persist_write_failure (create : DBNews → Except String Unit)
    (l : List DBNews) (k : Nat) (hk : k < l.length) (e : String)
    (hpre : ∀ j (hj : j < k), create (l.get ⟨j, hj.trans hk⟩) = Except.ok ())
    (hfail : create (l.get ⟨k, hk⟩) = Except.error e)
    (job : Job) (c : Collaborators) (now : Time)
    (hout : (Job.run job c now).outcome = Outcome.failedSave) :
    createAll create l =
      (l.take k, some ("[Job.saveNews][News.Create]: " ++ e)) ∧
    (Job.run job c now).publishCalled = [] ∧
    (Job.run job c now).updated = [] :=
  ⟨createAll_fails_at create l k hk e hpre hfail,
   (run_failedSave job c now hout).1, (run_failedSave job c now hout).2⟩

/-- Persisted record built from `newsA` with no composed match. -/
def dbnA : DBNews :=
  { hash := "a1", channelID := "ch", providerName := "p", originalTitle := "tA",
    originalDesc := "dA", originalDate := tDec15, url := "la",
    isSuspicious := false, composedText := "", metaData := none,
    publicationID := "", publishedAt := none }

/-- Persisted record built from `newsB` with no composed match. -/
def dbnB : DBNews :=
  { hash := "b2", channelID := "ch", providerName := "p", originalTitle := "tB",
    originalDesc := "dB", originalDate := tDec15, url := "lb",
    isSuspicious := true, composedText := "", metaData := none,
    publicationID := "", publishedAt := none }

/-- Persisted record built from `newsC` with no composed match. -/
def dbnC : DBNews :=
  { hash := "c3", channelID := "ch", providerName := "p", originalTitle := "tC",
    originalDesc := "dC", originalDate := tDec15, url := "lc",
    isSuspicious := false, composedText := "", metaData := none,
    publicationID := "", publishedAt := none }

/-- A create oracle that fails exactly on the record with hash `"b2"`. -/
def createFailB : DBNews → Except String Unit :=
  fun r => if r.hash == "b2" then Except.error "db down" else Except.ok ()

/-- Collaborators for a run that fails while persisting the 2nd of 3 records. -/
def collabFailB : Collaborators :=
  { getLatestNews := fun _ => ([newsA, newsB, newsC], none),
    findAllByHashes := fun _ => Except.ok [],
    compose := fun _ => Except.ok [],
    create := createFailB,
    pub := pubOK,
    update := fun _ => Except.ok () }

/-- C9 witness: create fails on the 2nd of 3 records — exactly the first
record was durably created, and the failed-persist run made no publish or
update calls. -/
theorem persist_write_failure_witness :
    createAll createFailB [dbnA, dbnB, dbnC] =
      ([dbnA], some "[Job.saveNews][News.Create]: db down") ∧
    (Job.run jobDedupe collabFailB tDec15).publishCalled = [] ∧
    (Job.run jobDedupe collabFailB tDec15).updated = [] := by
  have h := persist_write_failure createFailB [dbnA, dbnB, dbnC] 1
    (by decide) "db down"
    (fun j hj => by
      have hj0 : j = 0 := by omega
      subst hj0
      rfl)
    rfl jobDedupe collabFailB tDec15 (by decide)
  refine ⟨?_, h.2.1, h.2.2⟩
  rw [h.1]
  rfl

theorem runRest_no_persistence (job : Job)
    (fa : List String → Except String (List DBNews))
    (co : List News → Except String (List ComposedNews))
    (cr : DBNews → Except String Unit) (pu : String → Except String String)
    (up : DBNews → Except String Unit) (now : Time) (news : List News)
    (h : job.shouldSaveToDB = false) :
    (runRest job fa co cr pu up now news).created = [] ∧
    (runRest job fa co cr pu up now news).publishCalled = [] ∧
    (runRest job fa co cr pu up now news).updated = [] := by
  unfold runRest
  split
  · rename_i e ncalls heq
    simp [removeDuplicates, h] at heq
  · rename_i dnews ncalls heq
    split
    · exact ⟨rfl, rfl, rfl⟩
    · split
      · exact ⟨rfl, rfl, rfl⟩
      · rename_i comps ccalls heq2
        split
        · rename_i created e heq3
          rw [saveNews_disabled job cr _ h] at heq3
          injection heq3 with h1 h2
          exact Except.noConfusion h2
        · rename_i created dbNews heq3
          rw [saveNews_disabled job cr _ h] at heq3
          injection heq3 with h1 h2
          injection h2 with h2'
          subst h1
          subst h2'
          split
          · rename_i pres pcalls e heq4
            rw [publish_nil] at heq4
            injection heq4 with h3 h4 h5
            exact Option.noConfusion h5
          · rename_i pres pcalls heq4
            rw [publish_nil] at heq4
            injection heq4 with h3 h4 h5
            subst h3
            subst h4
            split
            · rename_i upd e heq5
              rw [updateNews_disabled job up _ h] at heq5
              injection heq5 with h6 h7
              exact Option.noConfusion h7
            · rename_i upd heq5
              rw [updateNews_disabled job up _ h] at heq5
              injection heq5 with h6 h7
              subst h6
              exact ⟨rfl, rfl, rfl⟩

/-- C1 (amended): when persistence is disabled the Persist stage returns an
empty record list, so the Publish stage iterates zero records: in every such
run nothing is created, nothing is passed to the publish collaborator, and
nothing is updated. -/
theorem run_no_persistence_publishes_nothing (job : Job) (c : Collaborators)
    (now : Time) (h : job.shouldSaveToDB = false) :
    (Job.run job c now).created = [] ∧
    (Job.run job c now).publishCalled = [] ∧
    (Job.run job c now).updated = [] := by
  unfold Job.run
  split
  · exact ⟨rfl, rfl, rfl⟩
  · exact runRest_no_persistence job c.findAllByHashes c.compose c.create
      c.pub c.update now (c.getLatestNews ()).1 h

/-- Configuration with persistence disabled and composition enabled, no
publish-time filters. -/
def jobNoDB : Job :=
  { omitSuspicious := false, omitEmptyMeta := false, shouldComposeText := true,
    shouldSaveToDB := false, shouldRemoveClones := false, channelID := "ch" }

/-- Collaborators whose fetch yields one unfiltered item and whose composer
enriches it — everything a publication would need. -/
def collabOne : Collaborators :=
  { getLatestNews := fun _ => ([newsA], none),
    findAllByHashes := fun _ => Except.ok [],
    compose := fun _ => Except.ok [compA],
    create := fun _ => Except.ok (),
    pub := pubOK,
    update := fun _ => Except.ok () }

/-- C1 counterexample: persistence disabled, one fetched item, no publish-time
filter applies and the composer enriched the item, yet the run passes nothing
to the publish collaborator — refuting the claim that Publish still iterates
the in-memory fetched/composed data and calls the collaborator for each
non-filtered item. -/
theorem run_no_persistence_counterexample :
    ((collabOne.getLatestNews ()).1).length = 1 ∧
    jobNoDB.omitSuspicious = false ∧
    jobNoDB.omitEmptyMeta = false ∧
    jobNoDB.shouldSaveToDB = false ∧
    (Job.run jobNoDB collabOne tDec15).outcome = Outcome.success ∧
    (Job.run jobNoDB collabOne tDec15).publishCalled = [] :=
  ⟨rfl, rfl, rfl, rfl, rfl, rfl⟩

/-- C1 witness: instantiating the amended claim at the counterexample's run. -/
theorem run_no_persistence_publishes_nothing_witness :
    (Job.run jobNoDB collabOne tDec15).created = [] ∧
    (Job.run jobNoDB collabOne tDec15).publishCalled = [] ∧
    (Job.run jobNoDB collabOne tDec15).updated = [] :=
  run_no_persistence_publishes_nothing jobNoDB collabOne tDec15 rfl

/-- Configuration with every filter and stage enabled. -/
def jobStrict : Job :=
  { omitSuspicious := true, omitEmptyMeta := true, shouldComposeText := true,
    shouldSaveToDB := true, shouldRemoveClones := false, channelID := "ch" }

/-- A suspicious record with a null metadata blob. -/
def recSNull : DBNews :=
  { hash := "sn", channelID := "ch", providerName := "p", originalTitle := "tS",
    originalDesc := "dS", originalDate := tDec15, url := "uS",
    isSuspicious := true, composedText := "", metaData := none,
    publicationID := "", publishedAt := none }

/-- A non-suspicious record with a null metadata blob. -/
def recNNull : DBNews :=
  { hash := "nn", channelID := "ch", providerName := "p", originalTitle := "tN",
    originalDesc := "dN", originalDate := tDec15, url := "uN",
    isSuspicious := false, composedText := "", metaData := none,
    publicationID := "", publishedAt := none }

/-- C10 counterexample: `omitEmptyMeta` is enabled and the record's metadata
is null, yet the Publish stage returns no decode error — the record is
screened out by the suspicious filter (step 1) before the metadata is ever
decoded, refuting the claim as stated. -/
theorem publish_null_meta_counterexample :
    recSNull.metaData = none ∧
    jobStrict.omitEmptyMeta = true ∧
    (Job.publish jobStrict pubOK tDec15 [recSNull]).err = none ∧
    (Job.publish jobStrict pubOK tDec15 [recSNull]).res = [recSNull] :=
  ⟨rfl, rfl, rfl, rfl⟩

/-- C10 (amended): with `omitEmptyMeta` enabled, when the Publish stage
reaches a record with a null metadata blob that is not screened out by the
suspicious filter, decoding fails: the stage returns the decode error at
once, makes no publish call for that record or any remaining one, and
returns the empty result — the run is fatal at that point. -/
theorem publish_null_meta_fatal (job : Job)
    (pub : String → Except String String) (now : Time) (r : DBNews)
    (rest : List DBNews) (h : job.omitEmptyMeta = true)
    (hmd : r.metaData = none)
    (hns : ¬(r.isSuspicious = true ∧ job.omitSuspicious = true)) :
    Job.publish job pub now (r :: rest) =
      { res := [], calls := [],
        err := some "[Job.publish][json.Unmarshal] meta: unexpected end of JSON input" } := by
  have hb : (r.isSuspicious && job.omitSuspicious) = false := by
    cases h1 : r.isSuspicious <;> cases h2 : job.omitSuspicious <;> simp_all
  have hck : checkMeta job r = Except.error
      "[Job.publish][json.Unmarshal] meta: unexpected end of JSON input" := by
    simp [checkMeta, h, hmd]
  have hpn : publishNews job pub now (r :: rest) =
      { res := [], calls := [],
        err := some "[Job.publish][json.Unmarshal] meta: unexpected end of JSON input" } := by
    simp only [publishNews, hb, Bool.false_eq_true, if_false, hck]
  unfold Job.publish
  rw [hpn]

/-- C10 witness: a non-suspicious null-metadata record at the head — the
Publish stage aborts with the decode error and the trailing record is never
published. -/
theorem publish_null_meta_fatal_witness :
    Job.publish jobStrict pubOK tDec15 [recNNull, recN] =
      { res := [], calls := [],
        err := some "[Job.publish][json.Unmarshal] meta: unexpected end of JSON input" } :=
  publish_null_meta_fatal jobStrict pubOK tDec15 recNNull [recN] rfl rfl
    (by decide)

end FinThread
